import Mathlib

/-!
Verification model of the markdowner incremental content compiler.

The definitions below are a shallow embedding of the two source modules:
the format resolver and document-body schema (`getFormat`, `body`), and the
generation pipeline (`generate`, `generateInner`, `generateDocuments`).
External collaborators (glob discovery, `gray-matter`, the bundler, the
schema library) are modelled as explicit parameters; JavaScript string-keyed
records are modelled as insertion-ordered association lists, matching
`Object.entries` / `Object.keys` / `Object.values` semantics for
non-integer-like keys such as absolute file paths.
-/

namespace Markdowner

/-- A JavaScript object used as a map: insertion-ordered association list. -/
abbrev Rec (α : Type) := List (String × α)

/-- `m[k]` lookup on a JavaScript record. -/
def recordGet {α : Type} : Rec α → String → Option α
  | [], _ => none
  | (k', v) :: rest, k => if k' = k then some v else recordGet rest k

/-- `m[k] = v` assignment on a JavaScript record: updates in place when the
key exists, otherwise appends (insertion order). -/
def recordSet {α : Type} : Rec α → String → α → Rec α
  | [], k, v => [(k, v)]
  | (k', v') :: rest, k, v =>
    if k' = k then (k', v) :: rest else (k', v') :: recordSet rest k v

/-- Document metadata (`Record<string, unknown>` in the source); values are
modelled opaquely as strings. -/
abbrev Data := Rec String

/-- Body formats (`DocumentFormat` in the source): plain markdown, extended
interactive markdown, templated markdown. -/
inductive DocumentFormat
  | md
  | mdx
  | mdoc
  deriving DecidableEq, Repr

/-- A format override: either an explicit format or extension detection
(`DocumentFormatInput` in the source). -/
inductive DocumentFormatInput
  | detect
  | explicit (f : DocumentFormat)
  deriving DecidableEq, Repr

/-- Index of the last `.` in a character list, if any. -/
def lastDotIdx (cs : List Char) : Option Nat :=
  (List.range cs.length).filter (fun i => cs.getD i ' ' = '.') |>.getLast?

/-- The characters of a path after its last separator. -/
def basenameChars (cs : List Char) : List Char :=
  cs.foldl (fun acc c => if c = '/' then [] else acc ++ [c]) []

/-- Model of Node's `path.extname`: the suffix of the basename from its last
dot, unless the basename has no dot or only a leading dot (dotfile). -/
def extname (file : String) : String :=
  let cs := basenameChars file.toList
  match lastDotIdx cs with
  | none => ""
  | some 0 => ""
  | some i => String.mk (cs.drop i)

/-- Extensions treated as plain markdown (copied in the source from the mdx
package's `mdExtensions` list). -/
def mdExtensions : List String :=
  [".md", ".markdown", ".mdown", ".mkdn", ".mkd", ".mdwn", ".mkdown", ".ron"]

/-- Format detection failure (`Unable to detect format for file: ...`),
carrying the offending path. -/
inductive FormatError
  | detectionFailure (file : String)
  deriving DecidableEq, Repr

/-- `getFormat` from the source: an explicit override is returned unchanged;
`detect` inspects the extension and throws on an unknown one. -/
def getFormat (file : String) (format : DocumentFormatInput) :
    Except FormatError DocumentFormat :=
  match format with
  | .detect =>
    let ext := extname file
    if mdExtensions.contains ext then .ok .md
    else if ext = ".mdx" then .ok .mdx
    else if ext = ".mdoc" then .ok .mdoc
    else .error (.detectionFailure file)
  | .explicit f => .ok f

/-- A compiled document body (`DocumentBody` in the source). -/
structure DocumentBody where
  format : DocumentFormat
  raw : String
  code : String
  deriving DecidableEq, Repr

/-- Errors produced while building a document body: format detection failure
or the first bundler error (reported via `addIssue` with `fatal: true`). -/
inductive BodyError
  | format (e : FormatError)
  | bundleIssue (message : String)
  deriving DecidableEq, Repr

/-- The bundler collaborator: given the resolved format and the raw contents,
returns compiled code or the text of the first error. -/
abbrev Bundler := DocumentFormat → String → Except String String

/-- The transform inside the `body` schema from the source: resolve the
format, promote `md` to `mdoc` when `mdAsMarkdoc` is set, bundle, and return
`\x7bformat, raw, code\x7d`. -/
def bodyTransform (path : String) (formatInput : DocumentFormatInput)
    (mdAsMarkdoc : Bool) (contents : String) (bundler : Bundler) :
    Except BodyError DocumentBody :=
  match getFormat path formatInput with
  | .error e => .error (.format e)
  | .ok f0 =>
    let format := if f0 = DocumentFormat.md ∧ mdAsMarkdoc then DocumentFormat.mdoc else f0
    match bundler format contents with
    | .error msg => .error (.bundleIssue msg)
    | .ok code => .ok ⟨format, contents, code⟩

/-! ### Generation pipeline (`generateDocuments`, `generateInner`, watch loop) -/

/-- The first failing issue of a schema parse (`parsed.error.errors[0]`): its
first path element, `String(parsed.error.errors[0].path[0])`. -/
structure ParseFailure where
  firstFieldPath : String
  deriving DecidableEq, Repr

/-- A resolved validation schema: `safeParseAsync` on the frontmatter,
returning transformed data or the failure. -/
abbrev Schema := Data → Except ParseFailure Data

/-- What the pipeline reads for one file: its fingerprint
(`stat(file).mtimeMs.toString()`), the raw metadata text
(`parsedMatter.matter`) and the parsed frontmatter (`parsedMatter.data`). -/
structure FileInfo where
  hash : String
  matterText : String
  frontmatter : Data
  deriving DecidableEq, Repr

/-- A persisted cache entry: `\x7bhash, type, document\x7d`. -/
structure CacheEntry where
  hash : String
  type : String
  document : Data
  deriving DecidableEq, Repr

/-- Error location carried by a `MarkdownlayerError`. -/
structure ErrorLocation where
  file : String
  line : Nat
  column : Nat
  deriving DecidableEq, Repr

/-- The fatal errors raised by `generateDocuments`. -/
inductive MarkdownlayerError
  | configNoPatterns
  | invalidFrontmatter (definitionType : String) (path : String)
      (firstField : String) (location : ErrorLocation)
  deriving DecidableEq, Repr

/-- Modelled from the spec: `getYamlErrorLine` lives in the errors module,
which is absent from the sources; the spec says the failing field's source
line is "computed by scanning the raw metadata text for that field's key".
We model it as the index of the first line of the raw metadata text that
starts with the field's key followed by a colon, defaulting to 0. -/
def getYamlErrorLine (matterText : String) (field : String) : Nat :=
  let lines := matterText.splitOn "\n"
  match lines.findIdx? (fun l => (field ++ ":").isPrefixOf l) with
  | some i => i
  | none => 0

/-- Filesystem writes performed by `generateDocuments`, in order. -/
inductive FsWrite
  | mkdirGenerated (type : String)
  | docFile (type : String) (path : String) (data : Data)
  | indexJson (type : String) (docsData : List Data)
  | indexMjs (type : String) (ids : List String)
  deriving DecidableEq, Repr

/-- Mutable state of the per-type loop in `generateDocuments`. -/
structure GenState where
  cacheItems : Rec CacheEntry
  writes : List FsWrite
  docs : Rec Data
  cached : Nat
  generated : Nat
  deriving DecidableEq, Repr

/-- Per-type counts returned by `generateDocuments`. -/
structure GeneratedCount where
  cached : Nat
  generated : Nat
  total : Nat
  deriving DecidableEq, Repr

/-- The miss path of the loop body: read and split the file, resolve the
schema, validate (throwing `InvalidDocumentFrontmatterError` on failure with
the computed line and column 0), write the per-document json, update the
cache entry and the docs record, and count the file as generated. -/
def processMiss (type : String) (schema : Option Schema) (fs : String → FileInfo)
    (st : GenState) (file : String) : Except MarkdownlayerError GenState :=
  let info := fs file
  let frontmatter := info.frontmatter
  let dataE : Except MarkdownlayerError Data :=
    match schema with
    | none => .ok frontmatter
    | some s =>
      match s frontmatter with
      | .ok parsed => .ok parsed
      | .error failure =>
        .error (.invalidFrontmatter type file failure.firstFieldPath
          ⟨file, getYamlErrorLine info.matterText failure.firstFieldPath, 0⟩)
  match dataE with
  | .error e => .error e
  | .ok data =>
    .ok ⟨recordSet st.cacheItems file ⟨info.hash, type, data⟩,
      st.writes ++ [.docFile type file data],
      recordSet st.docs file data,
      st.cached, st.generated + 1⟩

/-- The per-file loop of `generateDocuments`: a cache hit (entry exists and
its hash equals the file's current fingerprint) reuses the cached document
verbatim; otherwise the file is recomputed via `processMiss`. A thrown error
stops the loop, returning the state (and writes) accumulated so far. -/
def genLoop (type : String) (schema : Option Schema) (fs : String → FileInfo) :
    GenState → List String → GenState × Option MarkdownlayerError
  | st, [] => (st, none)
  | st, file :: rest =>
    let info := fs file
    match recordGet st.cacheItems file with
    | some entry =>
      if entry.hash = info.hash then
        genLoop type schema fs
          ⟨st.cacheItems, st.writes, recordSet st.docs file entry.document,
            st.cached + 1, st.generated⟩ rest
      else
        match processMiss type schema fs st file with
        | .error e => (st, some e)
        | .ok st' => genLoop type schema fs st' rest
    | none =>
      match processMiss type schema fs st file with
      | .error e => (st, some e)
      | .ok st' => genLoop type schema fs st' rest

/-- Result of `generateDocuments`: the filesystem writes that happened, and
either the counts plus the updated cache items, or the thrown error. -/
structure GenResult where
  writes : List FsWrite
  outcome : Except MarkdownlayerError (GeneratedCount × Rec CacheEntry)
  deriving Repr

/-- `generateDocuments` from the source: fail fatally when the pattern list
is empty (before any file is touched); otherwise create the output
directory, run the per-file loop over the discovered files, and on success
write the collection `index.json` (document values in record order) and
the module `index.mjs` (document keys in record order). -/
def generateDocuments (type : String) (schema : Option Schema)
    (patterns : List String) (files : List String) (fs : String → FileInfo)
    (cacheItems : Rec CacheEntry) : GenResult :=
  if patterns.length = 0 then
    ⟨[], .error .configNoPatterns⟩
  else
    match genLoop type schema fs ⟨cacheItems, [.mkdirGenerated type], [], 0, 0⟩ files with
    | (st, some e) => ⟨st.writes, .error e⟩
    | (st, none) =>
      ⟨st.writes ++ [.indexJson type (st.docs.map Prod.snd), .indexMjs type (st.docs.map Prod.fst)],
        .ok (⟨st.cached, st.generated, st.docs.length⟩, st.cacheItems)⟩

/-- Whether a file is a cache hit against a given cache-items record. -/
def hitB (items : Rec CacheEntry) (fs : String → FileInfo) (file : String) : Bool :=
  match recordGet items file with
  | some e => e.hash = (fs file).hash
  | none => false

/-- Whether recomputing a file succeeds (no schema, or the schema parse of
its frontmatter succeeds). -/
def missOk (schema : Option Schema) (fs : String → FileInfo) (file : String) : Bool :=
  match schema with
  | none => true
  | some s =>
    match s (fs file).frontmatter with
    | .ok _ => true
    | .error _ => false

/-- The data a recomputation emits for a file (assuming it succeeds). -/
def freshData (schema : Option Schema) (fs : String → FileInfo) (file : String) : Data :=
  match schema with
  | none => (fs file).frontmatter
  | some s =>
    match s (fs file).frontmatter with
    | .ok d => d
    | .error _ => (fs file).frontmatter

/-- The document data a run emits for a file: the cached document on a hit,
the freshly recomputed data otherwise. -/
def docFor (schema : Option Schema) (fs : String → FileInfo)
    (items : Rec CacheEntry) (file : String) : Data :=
  match recordGet items file with
  | some e => if e.hash = (fs file).hash then e.document else freshData schema fs file
  | none => freshData schema fs file

/-! ### Orchestrator (`generateInner`) and watch handler (`generate`) -/

/-- The part of a document type definition the pipeline consults. -/
structure DefModel where
  schema : Option Schema

/-- The external collaborators of a pass: per-type file discovery (globby,
whose ordering is authoritative) and the filesystem view of each file. -/
structure Env where
  filesFor : String → List String
  fs : String → FileInfo

/-- Observable events of a full pass, in order. -/
inductive GenEvent
  | entryFiles
  | fsWrite (w : FsWrite)
  | outputAssets
  | saveCache
  | logStats (total cached : Nat)
  deriving DecidableEq, Repr

/-- Errors of a full pass: a thrown `MarkdownlayerError`, or the `TypeError`
from reducing an empty array with no initial value. -/
inductive RunError
  | markdownlayer (e : MarkdownlayerError)
  | reduceEmpty
  deriving DecidableEq, Repr

/-- JavaScript `Array.prototype.reduce` with no initial value, as used on
the per-type summaries: throws on an empty array, otherwise folds from the
first element. -/
def reduceCounts : List GeneratedCount → Except RunError GeneratedCount
  | [] => .error .reduceEmpty
  | c :: rest =>
    .ok (rest.foldl
      (fun acc x => ⟨acc.cached + x.cached, acc.generated + x.generated, acc.total + x.total⟩) c)

/-- The per-definition loop of `generateInner`: run `generateDocuments` for
each declared type against the (mutated in place) cache items, stopping at
the first thrown error. -/
def typesLoop (env : Env) (patterns : List String) :
    List (String × DefModel) → Rec CacheEntry →
    List GenEvent × Rec CacheEntry × Except MarkdownlayerError (List GeneratedCount)
  | [], items => ([], items, .ok [])
  | (type, d) :: rest, items =>
    let r := generateDocuments type d.schema patterns (env.filesFor type) env.fs items
    match r.outcome with
    | .error e => (r.writes.map GenEvent.fsWrite, items, .error e)
    | .ok (count, items') =>
      match typesLoop env patterns rest items' with
      | (evs, items'', res) =>
        (r.writes.map GenEvent.fsWrite ++ evs, items'', res.map (fun cs => count :: cs))

/-- `generateInner` from the source: process every definition, output
assets, save the cache, then aggregate the per-type summaries with an
initial-accumulator-free reduce and log the stats. -/
def generateInner (env : Env) (patterns : List String)
    (definitions : List (String × DefModel)) (cacheItems : Rec CacheEntry) :
    List GenEvent × Except RunError (Rec CacheEntry) :=
  match typesLoop env patterns definitions cacheItems with
  | (evs, _, .error e) => (evs, .error (.markdownlayer e))
  | (evs, items', .ok counts) =>
    let evs := evs ++ [.outputAssets, .saveCache]
    match reduceCounts counts with
    | .error e => (evs, .error e)
    | .ok c => (evs ++ [.logStats c.total c.cached], .ok items')

/-- One generation pass of `generate`: entry files are written first (they
do not depend on content), then `generateInner` runs. -/
def generatePass (env : Env) (patterns : List String)
    (definitions : List (String × DefModel)) (cacheItems : Rec CacheEntry) :
    List GenEvent × Except RunError (Rec CacheEntry) :=
  match generateInner env patterns definitions cacheItems with
  | (evs, out) => (GenEvent.entryFiles :: evs, out)

/-- The in-memory cache as the watch handler sees it: the per-file items
and the `uniques` record (keys mapped to file paths). -/
structure WatchCache where
  items : Rec CacheEntry
  uniques : Rec String
  deriving Repr

/-- What the watch handler decides to do for one event. -/
inductive WatchAction
  | ignored
  | restart
  | regenerate (cache : WatchCache)
  deriving Repr

/-- Model of Node's `path.join` as used on the watcher's relative paths. -/
def joinPath (a b : String) : String := a ++ "/" ++ b

/-- The `watcher.on('all', ...)` handler from `generate`: ignore directory
events, join the relative filename onto the content directory, delete every
`cache.uniques` entry whose value is the changed path, then either restart
(config dependency changed) or regenerate reusing the in-memory cache. -/
def watchHandler (contentDirPath : String) (configImports : List String)
    (cache : WatchCache) (eventName : String) (filename : String) : WatchAction :=
  if eventName = "addDir" ∨ eventName = "unlinkDir" then .ignored
  else
    let filename := joinPath contentDirPath filename
    let uniques := cache.uniques.filter (fun kv => kv.2 ≠ filename)
    if configImports.contains filename then .restart
    else .regenerate ⟨cache.items, uniques⟩

/-! ### Concrete instances used to exercise the theorems -/

/-- A concrete schema whose transformed output differs from any raw block. -/
def exSchema : Schema := fun _ => .ok [("title", "Transformed")]

/-- A concrete schema that always fails on the `title` field. -/
def exFailSchema : Schema := fun _ => .error ⟨"title"⟩

/-- A concrete two-file filesystem. -/
def exFs : String → FileInfo := fun f =>
  if f = "a.md" then ⟨"100", "title: A", [("title", "A")]⟩
  else ⟨"200", "title: B", [("title", "B")]⟩

/-- `exFs` after touching `a.md` (fingerprint and contents changed). -/
def exFs2 : String → FileInfo := fun f =>
  if f = "a.md" then ⟨"101", "title: A2", [("title", "A2")]⟩ else exFs f

/-- A cache-items record in which `a.md` is a valid hit and `b.md` is
absent, so one pass mixes a hit and a miss. -/
def exItemsC6 : Rec CacheEntry := [("a.md", ⟨"100", "post", [("title", "A")]⟩)]

/-- A concrete filesystem rooted at a `content` directory. -/
def exWatchFs : String → FileInfo := fun f =>
  if f = "content/a.md" then ⟨"100", "title: A", [("title", "A")]⟩
  else ⟨"200", "title: B", [("title", "B")]⟩

/-- `exWatchFs` after touching `content/a.md`. -/
def exWatchFs2 : String → FileInfo := fun f =>
  if f = "content/a.md" then ⟨"101", "title: A2", [("title", "A2")]⟩ else exWatchFs f

/-- An in-memory watch cache matching `exWatchFs`, with two `uniques`
entries pointing at the two files. -/
def exWatchCache : WatchCache :=
  ⟨[("content/a.md", ⟨"100", "post", [("title", "A")]⟩),
    ("content/b.md", ⟨"200", "post", [("title", "B")]⟩)],
   [("asset-1", "content/a.md"), ("asset-2", "content/b.md")]⟩

/-- A concrete bundler that always succeeds. -/
def exBundler : Bundler := fun _ c => .ok ("compiled:" ++ c)

/-! ### Record lemmas -/

theorem recordGet_recordSet_self {α : Type} (m : Rec α) (k : String) (v : α) :
    recordGet (recordSet m k v) k = some v := by
  induction m with
  | nil => simp [recordGet, recordSet]
  | cons kv rest ih =>
    by_cases h : kv.1 = k
    · simp [recordGet, recordSet, h]
    · simpa [recordGet, recordSet, h] using ih

theorem recordGet_recordSet_ne {α : Type} (m : Rec α) (k k' : String) (v : α)
    (h : k' ≠ k) : recordGet (recordSet m k v) k' = recordGet m k' := by
  induction m with
  | nil => simp [recordGet, recordSet, Ne.symm h]
  | cons kv rest ih =>
    obtain ⟨k1, v1⟩ := kv
    by_cases hk : k1 = k
    · subst hk
      simp [recordSet, recordGet, Ne.symm h]
    · by_cases hk' : k1 = k'
      · subst hk'
        simp [recordSet, recordGet, hk]
      · simp [recordSet, recordGet, hk, hk', ih]

theorem recordSet_eq_append {α : Type} (m : Rec α) (k : String) (v : α)
    (h : recordGet m k = none) : recordSet m k v = m ++ [(k, v)] := by
  induction m with
  | nil => simp [recordSet]
  | cons kv rest ih =>
    by_cases hk : kv.1 = k
    · simp [recordGet, hk] at h
    · simp [recordGet, hk] at h
      simp [recordSet, hk, ih h]

/-! ### Hit / miss characterizations -/

theorem hitB_true_iff (items : Rec CacheEntry) (fs : String → FileInfo) (file : String) :
    hitB items fs file = true ↔
      ∃ e, recordGet items file = some e ∧ e.hash = (fs file).hash := by
  unfold hitB
  cases h : recordGet items file with
  | none => simp
  | some e => simp [h]

theorem processMiss_ok (type : String) (schema : Option Schema) (fs : String → FileInfo)
    (st : GenState) (file : String) (h : missOk schema fs file = true) :
    processMiss type schema fs st file =
      .ok ⟨recordSet st.cacheItems file ⟨(fs file).hash, type, freshData schema fs file⟩,
        st.writes ++ [.docFile type file (freshData schema fs file)],
        recordSet st.docs file (freshData schema fs file),
        st.cached, st.generated + 1⟩ := by
  cases schema with
  | none => simp [processMiss, freshData]
  | some s =>
    cases hs : s (fs file).frontmatter with
    | ok d => simp [processMiss, freshData, hs]
    | error failure => simp [missOk, hs] at h

theorem processMiss_err (type : String) (s : Schema) (fs : String → FileInfo)
    (st : GenState) (file : String) (failure : ParseFailure)
    (hs : s (fs file).frontmatter = .error failure) :
    processMiss type (some s) fs st file =
      .error (.invalidFrontmatter type file failure.firstFieldPath
        ⟨file, getYamlErrorLine (fs file).matterText failure.firstFieldPath, 0⟩) := by
  simp [processMiss, hs]

theorem hitB_congr (items items' : Rec CacheEntry) (fs : String → FileInfo) (file : String)
    (h : recordGet items file = recordGet items' file) :
    hitB items fs file = hitB items' fs file := by
  unfold hitB
  rw [h]

theorem genLoop_cons_hit (type : String) (schema : Option Schema) (fs : String → FileInfo)
    (st : GenState) (file : String) (rest : List String) (e : CacheEntry)
    (hsc : recordGet st.cacheItems file = some e)
    (hhash : e.hash = (fs file).hash) :
    genLoop type schema fs st (file :: rest) =
      genLoop type schema fs
        ⟨st.cacheItems, st.writes, recordSet st.docs file e.document,
          st.cached + 1, st.generated⟩ rest := by
  simp [genLoop, hsc, hhash]

theorem genLoop_cons_miss (type : String) (schema : Option Schema) (fs : String → FileInfo)
    (st : GenState) (file : String) (rest : List String)
    (hmiss : hitB st.cacheItems fs file = false)
    (hok : missOk schema fs file = true) :
    genLoop type schema fs st (file :: rest) =
      genLoop type schema fs
        ⟨recordSet st.cacheItems file ⟨(fs file).hash, type, freshData schema fs file⟩,
          st.writes ++ [.docFile type file (freshData schema fs file)],
          recordSet st.docs file (freshData schema fs file),
          st.cached, st.generated + 1⟩ rest := by
  cases hsc : recordGet st.cacheItems file with
  | none => simp [genLoop, hsc, processMiss_ok type schema fs st file hok]
  | some e =>
    have hne : ¬ e.hash = (fs file).hash := by
      intro he
      rw [hitB, hsc] at hmiss
      simp [he] at hmiss
    simp [genLoop, hsc, hne, processMiss_ok type schema fs st file hok]

theorem genLoop_cons_fail (type : String) (s : Schema) (fs : String → FileInfo)
    (st : GenState) (file : String) (rest : List String) (failure : ParseFailure)
    (hmiss : hitB st.cacheItems fs file = false)
    (hs : s (fs file).frontmatter = .error failure) :
    genLoop type (some s) fs st (file :: rest) =
      (st, some (.invalidFrontmatter type file failure.firstFieldPath
        ⟨file, getYamlErrorLine (fs file).matterText failure.firstFieldPath, 0⟩)) := by
  cases hsc : recordGet st.cacheItems file with
  | none => simp [genLoop, hsc, processMiss_err type s fs st file failure hs]
  | some e =>
    have hne : ¬ e.hash = (fs file).hash := by
      intro he
      rw [hitB, hsc] at hmiss
      simp [he] at hmiss
    simp [genLoop, hsc, hne, processMiss_err type s fs st file failure hs]

/-- Master lemma for successful runs of the per-file loop: when every file is
either a cache hit (against a reference record `items0` the loop state agrees
with on the files) or validates successfully, the loop completes, counts hits
and misses, appends the documents in discovery order, performs exactly the
per-document writes of the misses, leaves cache entries of other paths
untouched, and leaves every processed file with an entry matching its current
fingerprint. -/
theorem genLoop_ok (type : String) (schema : Option Schema) (fs : String → FileInfo)
    (items0 : Rec CacheEntry) :
    ∀ (files : List String) (st : GenState),
      files.Nodup →
      (∀ f ∈ files, recordGet st.cacheItems f = recordGet items0 f) →
      (∀ f ∈ files, recordGet st.docs f = none) →
      (∀ f ∈ files, hitB items0 fs f = true ∨ missOk schema fs f = true) →
      ∃ st' : GenState,
        genLoop type schema fs st files = (st', none) ∧
        st'.cached = st.cached + List.countP (fun f => hitB items0 fs f) files ∧
        st'.generated = st.generated + List.countP (fun f => !hitB items0 fs f) files ∧
        st'.docs = st.docs ++ files.map (fun f => (f, docFor schema fs items0 f)) ∧
        st'.writes = st.writes ++ (files.filter (fun f => !hitB items0 fs f)).map
          (fun f => FsWrite.docFile type f (freshData schema fs f)) ∧
        (∀ g, g ∉ files → recordGet st'.cacheItems g = recordGet st.cacheItems g) ∧
        (∀ f ∈ files, ∃ e : CacheEntry,
          recordGet st'.cacheItems f = some e ∧ e.hash = (fs f).hash) := by
  intro files
  induction files with
  | nil =>
    intro st _ _ _ _
    exact ⟨st, by simp [genLoop]⟩
  | cons file rest ih =>
    intro st hnd hagree hdocs hok
    have hmemf : file ∈ file :: rest := List.mem_cons_self _ _
    have hagreef := hagree file hmemf
    have hdocsf := hdocs file hmemf
    obtain ⟨hfnotin, hndrest⟩ := List.nodup_cons.mp hnd
    have hne : ∀ f ∈ rest, f ≠ file := fun f hf he => hfnotin (he ▸ hf)
    by_cases hhit : hitB items0 fs file = true
    · -- cache hit
      obtain ⟨e, hlook, hhash⟩ := (hitB_true_iff items0 fs file).mp hhit
      have hsc : recordGet st.cacheItems file = some e := hagreef.trans hlook
      set st1 : GenState :=
        ⟨st.cacheItems, st.writes, recordSet st.docs file e.document,
          st.cached + 1, st.generated⟩ with hst1
      have hstep := genLoop_cons_hit type schema fs st file rest e hsc hhash
      obtain ⟨st', heq, hcached, hgen, hdocs', hwrites, hout, hin⟩ :=
        ih st1 hndrest
          (fun f hf => hagree f (List.mem_cons_of_mem _ hf))
          (fun f hf => by
            rw [hst1]
            simpa [recordGet_recordSet_ne st.docs file f e.document (hne f hf)]
              using hdocs f (List.mem_cons_of_mem _ hf))
          (fun f hf => hok f (List.mem_cons_of_mem _ hf))
      refine ⟨st', hstep.trans heq, ?_, ?_, ?_, ?_, ?_, ?_⟩
      · rw [hcached, hst1]
        simp [List.countP_cons, hhit]
        omega
      · rw [hgen, hst1]
        simp [List.countP_cons, hhit]
      · rw [hdocs', hst1]
        simp only
        rw [recordSet_eq_append st.docs file e.document hdocsf]
        have hdf : docFor schema fs items0 file = e.document := by
          simp [docFor, hlook, hhash]
        simp [hdf]
      · rw [hwrites, hst1]
        simp [List.filter_cons, hhit]
      · intro g hg
        have hgrest : g ∉ rest := fun h => hg (List.mem_cons_of_mem _ h)
        rw [hout g hgrest, hst1]
      · intro f hf
        rcases List.mem_cons.mp hf with hfe | hfr
        · subst hfe
          refine ⟨e, ?_, hhash⟩
          rw [hout f hfnotin, hst1]
          exact hsc
        · exact hin f hfr
    · -- cache miss that recomputes successfully
      have hhitf : hitB items0 fs file = false := by
        cases h : hitB items0 fs file
        · rfl
        · exact absurd h hhit
      have hmok : missOk schema fs file = true := by
        rcases hok file hmemf with h | h
        · exact absurd h hhit
        · exact h
      have hmiss : hitB st.cacheItems fs file = false := by
        rw [hitB_congr st.cacheItems items0 fs file hagreef]
        exact hhitf
      set newEntry : CacheEntry := ⟨(fs file).hash, type, freshData schema fs file⟩ with hnew
      set st1 : GenState :=
        ⟨recordSet st.cacheItems file newEntry,
          st.writes ++ [.docFile type file (freshData schema fs file)],
          recordSet st.docs file (freshData schema fs file),
          st.cached, st.generated + 1⟩ with hst1
      have hstep := genLoop_cons_miss type schema fs st file rest hmiss hmok
      obtain ⟨st', heq, hcached, hgen, hdocs', hwrites, hout, hin⟩ :=
        ih st1 hndrest
          (fun f hf => by
            rw [hst1]
            simpa [recordGet_recordSet_ne st.cacheItems file f newEntry (hne f hf)]
              using hagree f (List.mem_cons_of_mem _ hf))
          (fun f hf => by
            rw [hst1]
            simpa [recordGet_recordSet_ne st.docs file f (freshData schema fs file) (hne f hf)]
              using hdocs f (List.mem_cons_of_mem _ hf))
          (fun f hf => hok f (List.mem_cons_of_mem _ hf))
      refine ⟨st', hstep.trans heq, ?_, ?_, ?_, ?_, ?_, ?_⟩
      · rw [hcached, hst1]
        simp [List.countP_cons, hhitf]
      · rw [hgen, hst1]
        simp [List.countP_cons, hhitf]
        omega
      · rw [hdocs', hst1]
        simp only
        rw [recordSet_eq_append st.docs file (freshData schema fs file) hdocsf]
        have hdf : docFor schema fs items0 file = freshData schema fs file := by
          unfold docFor
          cases hlook : recordGet items0 file with
          | none => simp
          | some e =>
            have : ¬ e.hash = (fs file).hash := by
              intro he
              rw [hitB, hlook] at hhitf
              simp [he] at hhitf
            simp [this]
        simp [hdf]
      · rw [hwrites, hst1]
        simp [List.filter_cons, hhitf]
      · intro g hg
        have hgrest : g ∉ rest := fun h => hg (List.mem_cons_of_mem _ h)
        have hgfile : g ≠ file := fun h => hg (h ▸ hmemf)
        rw [hout g hgrest, hst1]
        simp only
        exact recordGet_recordSet_ne st.cacheItems file g newEntry hgfile
      · intro f hf
        rcases List.mem_cons.mp hf with hfe | hfr
        · subst hfe
          refine ⟨newEntry, ?_, rfl⟩
          rw [hout f hfnotin, hst1]
          simp only
          exact recordGet_recordSet_self st.cacheItems f newEntry
        · exact hin f hfr

/-- Master lemma for failing runs of the per-file loop: when some file is
neither a cache hit nor validates, the loop stops at such a file with the
`InvalidDocumentFrontmatterError` built from it, and the writes accumulated
up to the error extend the initial ones only with per-document json files —
never a collection artifact. -/
theorem genLoop_err (type : String) (s : Schema) (fs : String → FileInfo)
    (items0 : Rec CacheEntry) :
    ∀ (files : List String) (st : GenState),
      files.Nodup →
      (∀ f ∈ files, recordGet st.cacheItems f = recordGet items0 f) →
      (∃ f ∈ files, hitB items0 fs f = false ∧ missOk (some s) fs f = false) →
      ∃ (st' : GenState) (f0 : String) (failure : ParseFailure),
        f0 ∈ files ∧ hitB items0 fs f0 = false ∧
        s (fs f0).frontmatter = .error failure ∧
        genLoop type (some s) fs st files =
          (st', some (.invalidFrontmatter type f0 failure.firstFieldPath
            ⟨f0, getYamlErrorLine (fs f0).matterText failure.firstFieldPath, 0⟩)) ∧
        (∀ w ∈ st'.writes, w ∈ st.writes ∨ ∃ g d, w = FsWrite.docFile type g d) := by
  intro files
  induction files with
  | nil =>
    intro st _ _ hex
    obtain ⟨f, hf, _⟩ := hex
    exact absurd hf (List.not_mem_nil f)
  | cons file rest ih =>
    intro st hnd hagree hex
    have hmemf : file ∈ file :: rest := List.mem_cons_self _ _
    have hagreef := hagree file hmemf
    obtain ⟨hfnotin, hndrest⟩ := List.nodup_cons.mp hnd
    have hne : ∀ f ∈ rest, f ≠ file := fun f hf he => hfnotin (he ▸ hf)
    by_cases hhit : hitB items0 fs file = true
    · -- head is a hit: the failing witness is in the tail
      obtain ⟨e, hlook, hhash⟩ := (hitB_true_iff items0 fs file).mp hhit
      have hsc : recordGet st.cacheItems file = some e := hagreef.trans hlook
      set st1 : GenState :=
        ⟨st.cacheItems, st.writes, recordSet st.docs file e.document,
          st.cached + 1, st.generated⟩ with hst1
      have hstep := genLoop_cons_hit type (some s) fs st file rest e hsc hhash
      have hexrest : ∃ f ∈ rest, hitB items0 fs f = false ∧ missOk (some s) fs f = false := by
        obtain ⟨f, hf, hprops⟩ := hex
        rcases List.mem_cons.mp hf with hfe | hfr
        · subst hfe
          exact absurd hhit (by simp [hprops.1])
        · exact ⟨f, hfr, hprops⟩
      obtain ⟨st', f0, failure, hf0, hf0hit, hf0err, heq, hw⟩ :=
        ih st1 hndrest (fun f hf => hagree f (List.mem_cons_of_mem _ hf)) hexrest
      refine ⟨st', f0, failure, List.mem_cons_of_mem _ hf0, hf0hit, hf0err,
        hstep.trans heq, ?_⟩
      intro w hwmem
      rcases hw w hwmem with h | h
      · exact Or.inl (by rw [hst1] at h; exact h)
      · exact Or.inr h
    · have hhitf : hitB items0 fs file = false := by
        cases h : hitB items0 fs file
        · rfl
        · exact absurd h hhit
      have hmiss : hitB st.cacheItems fs file = false := by
        rw [hitB_congr st.cacheItems items0 fs file hagreef]
        exact hhitf
      by_cases hmok : missOk (some s) fs file = true
      · -- head recomputes: the failing witness is in the tail
        set newEntry : CacheEntry := ⟨(fs file).hash, type, freshData (some s) fs file⟩ with hnew
        set st1 : GenState :=
          ⟨recordSet st.cacheItems file newEntry,
            st.writes ++ [.docFile type file (freshData (some s) fs file)],
            recordSet st.docs file (freshData (some s) fs file),
            st.cached, st.generated + 1⟩ with hst1
        have hstep := genLoop_cons_miss type (some s) fs st file rest hmiss hmok
        have hexrest : ∃ f ∈ rest, hitB items0 fs f = false ∧ missOk (some s) fs f = false := by
          obtain ⟨f, hf, hprops⟩ := hex
          rcases List.mem_cons.mp hf with hfe | hfr
          · subst hfe
            exact absurd hmok (by simp [hprops.2])
          · exact ⟨f, hfr, hprops⟩
        obtain ⟨st', f0, failure, hf0, hf0hit, hf0err, heq, hw⟩ :=
          ih st1 hndrest
            (fun f hf => by
              rw [hst1]
              simpa [recordGet_recordSet_ne st.cacheItems file f newEntry (hne f hf)]
                using hagree f (List.mem_cons_of_mem _ hf))
            hexrest
        refine ⟨st', f0, failure, List.mem_cons_of_mem _ hf0, hf0hit, hf0err,
          hstep.trans heq, ?_⟩
        intro w hwmem
        rcases hw w hwmem with h | h
        · rw [hst1] at h
          simp only at h
          rcases List.mem_append.mp h with h | h
          · exact Or.inl h
          · exact Or.inr ⟨file, freshData (some s) fs file, by simpa using h⟩
        · exact Or.inr h
      · -- head itself fails validation
        have hmokf : missOk (some s) fs file = false := by
          cases h : missOk (some s) fs file
          · rfl
          · exact absurd h hmok
        obtain ⟨failure, hs⟩ : ∃ failure, s (fs file).frontmatter = .error failure := by
          cases hsv : s (fs file).frontmatter with
          | ok d => rw [missOk, hsv] at hmokf; simp at hmokf
          | error failure => exact ⟨failure, rfl⟩
        refine ⟨st, file, failure, hmemf, hhitf, hs,
          genLoop_cons_fail type s fs st file rest failure hmiss hs, ?_⟩
        intro w hwmem
        exact Or.inl hwmem

/-- A successful `generateDocuments` run in full: its writes (output
directory, per-document json for each miss, then the collection index and
module of imports in discovery order), its counts (hits, misses, total of
discovered files), and the state of the cache items afterwards. -/
theorem generateDocuments_ok (type : String) (schema : Option Schema)
    (patterns : List String) (files : List String) (fs : String → FileInfo)
    (items0 : Rec CacheEntry)
    (hp : patterns ≠ [])
    (hnd : files.Nodup)
    (hok : ∀ f ∈ files, hitB items0 fs f = true ∨ missOk schema fs f = true) :
    ∃ items1 : Rec CacheEntry,
      generateDocuments type schema patterns files fs items0 =
        ⟨FsWrite.mkdirGenerated type ::
          ((files.filter (fun f => !hitB items0 fs f)).map
            (fun f => FsWrite.docFile type f (freshData schema fs f)) ++
          [.indexJson type (files.map (docFor schema fs items0)),
           .indexMjs type files]),
         .ok (⟨List.countP (fun f => hitB items0 fs f) files,
               List.countP (fun f => !hitB items0 fs f) files,
               files.length⟩, items1)⟩ ∧
      (∀ g, g ∉ files → recordGet items1 g = recordGet items0 g) ∧
      (∀ f ∈ files, ∃ e : CacheEntry,
        recordGet items1 f = some e ∧ e.hash = (fs f).hash) := by
  have hplen : ¬ patterns.length = 0 := by
    intro h
    exact hp (List.length_eq_zero.mp h)
  obtain ⟨st', heq, hcached, hgen, hdocs', hwrites, hout, hin⟩ :=
    genLoop_ok type schema fs items0 files ⟨items0, [.mkdirGenerated type], [], 0, 0⟩
      hnd (fun f _ => rfl) (fun f _ => rfl) hok
  refine ⟨st'.cacheItems, ?_, hout, hin⟩
  rw [generateDocuments, if_neg hplen, heq]
  simp only [hwrites, hdocs', hcached, hgen]
  simp [List.map_map, Function.comp]
  have hid : (Prod.fst ∘ fun f : String => (f, docFor schema fs items0 f)) = id := rfl
  rw [hid, List.map_id]

/-- Shared lemma: a pass over files whose cache entries all match an old
filesystem view, run against a new view that changed exactly one file's
fingerprint, recomputes exactly that file. -/
theorem single_change_counts (type : String) (schema : Option Schema)
    (patterns files : List String) (fs fs' : String → FileInfo)
    (items : Rec CacheEntry) (f0 : String)
    (hp : patterns ≠ [])
    (hnd : files.Nodup)
    (hf0 : f0 ∈ files)
    (hhits : ∀ f ∈ files, ∃ e : CacheEntry,
      recordGet items f = some e ∧ e.hash = (fs f).hash)
    (hchg : (fs' f0).hash ≠ (fs f0).hash)
    (hsame : ∀ f, f ≠ f0 → fs' f = fs f)
    (hmok : missOk schema fs' f0 = true) :
    ∃ (c : GeneratedCount) (items' : Rec CacheEntry),
      (generateDocuments type schema patterns files fs' items).outcome = .ok (c, items') ∧
      c.generated = 1 ∧ c.cached = files.length - 1 ∧ c.total = files.length := by
  have hself : hitB items fs' f0 = false := by
    obtain ⟨e, he, hh⟩ := hhits f0 hf0
    rw [hitB, he]
    simp only [decide_eq_false_iff_not]
    rw [hh]
    exact Ne.symm hchg
  have hother : ∀ f ∈ files, f ≠ f0 → hitB items fs' f = true := by
    intro f hf hne
    obtain ⟨e, he, hh⟩ := hhits f hf
    rw [hitB, he, hsame f hne]
    simp [hh]
  have hok2 : ∀ f ∈ files, hitB items fs' f = true ∨ missOk schema fs' f = true := by
    intro f hf
    by_cases hfe : f = f0
    · subst hfe
      exact Or.inr hmok
    · exact Or.inl (hother f hf hfe)
  obtain ⟨items', heq, _, _⟩ :=
    generateDocuments_ok type schema patterns files fs' items hp hnd hok2
  have hgen1 : List.countP (fun f => !hitB items fs' f) files = 1 := by
    have hcong : List.countP (fun f => !hitB items fs' f) files =
        List.countP (fun f => f == f0) files := by
      refine List.countP_congr ?_
      intro f hf
      by_cases hfe : f = f0
      · subst hfe
        simp [hself]
      · simp [hother f hf hfe, hfe]
    rw [hcong, ← List.count_eq_countP]
    exact List.count_eq_one_of_mem hnd hf0
  have hsum : files.length = List.countP (fun f => hitB items fs' f) files +
      List.countP (fun f => !hitB items fs' f) files := by
    have h := List.length_eq_countP_add_countP (p := fun f => hitB items fs' f) files
    rw [h]
    congr 1
    refine List.countP_congr ?_
    intro f _
    simp
  refine ⟨_, items', by rw [heq], ?_, ?_, rfl⟩
  · exact hgen1
  · show List.countP (fun f => hitB items fs' f) files = files.length - 1
    omega

/-- C1: running the generation pass twice over the same set of content files
with no file modification in between, persisting the cache items from the
first pass into the second, completes both passes and yields `generated = 0`
and `cached = total` (with `total` the number of discovered files) on the
second pass. -/
theorem C1_idempotence_under_no_change (type : String) (schema : Option Schema)
    (patterns files : List String) (fs : String → FileInfo) (items0 : Rec CacheEntry)
    (hp : patterns ≠ [])
    (hnd : files.Nodup)
    (hok : ∀ f ∈ files, hitB items0 fs f = true ∨ missOk schema fs f = true) :
    ∃ (c1 c2 : GeneratedCount) (items1 items2 : Rec CacheEntry),
      (generateDocuments type schema patterns files fs items0).outcome = .ok (c1, items1) ∧
      (generateDocuments type schema patterns files fs items1).outcome = .ok (c2, items2) ∧
      c2.generated = 0 ∧ c2.cached = c2.total ∧ c2.total = files.length := by
  obtain ⟨items1, heq1, hout1, hin1⟩ :=
    generateDocuments_ok type schema patterns files fs items0 hp hnd hok
  have hhits : ∀ f ∈ files, hitB items1 fs f = true := by
    intro f hf
    obtain ⟨e, he, hh⟩ := hin1 f hf
    exact (hitB_true_iff items1 fs f).mpr ⟨e, he, hh⟩
  obtain ⟨items2, heq2, hout2, hin2⟩ :=
    generateDocuments_ok type schema patterns files fs items1 hp hnd
      (fun f hf => Or.inl (hhits f hf))
  refine ⟨_, _, items1, items2, by rw [heq1], by rw [heq2], ?_, ?_, rfl⟩
  · simp only
    rw [List.countP_eq_zero]
    intro f hf
    simp [hhits f hf]
  · simp only
    rw [List.countP_eq_length.mpr (fun f hf => by simp [hhits f hf])]

/-- C2: starting from any cache state for which a first pass completes,
modifying exactly one of the `N` discovered files (its fingerprint changes,
all other files are untouched) and re-running the pass with the cache from
the first pass yields `generated = 1` and `cached = N - 1`. -/
theorem C2_precise_invalidation (type : String) (schema : Option Schema)
    (patterns files : List String) (fs fs' : String → FileInfo)
    (items0 : Rec CacheEntry) (f0 : String)
    (hp : patterns ≠ [])
    (hnd : files.Nodup)
    (hf0 : f0 ∈ files)
    (hok : ∀ f ∈ files, hitB items0 fs f = true ∨ missOk schema fs f = true)
    (hchg : (fs' f0).hash ≠ (fs f0).hash)
    (hsame : ∀ f, f ≠ f0 → fs' f = fs f)
    (hmok : missOk schema fs' f0 = true) :
    ∃ (c1 c2 : GeneratedCount) (items1 items2 : Rec CacheEntry),
      (generateDocuments type schema patterns files fs items0).outcome = .ok (c1, items1) ∧
      (generateDocuments type schema patterns files fs' items1).outcome = .ok (c2, items2) ∧
      c2.generated = 1 ∧ c2.cached = files.length - 1 ∧ c2.total = files.length := by
  obtain ⟨items1, heq1, hout1, hin1⟩ :=
    generateDocuments_ok type schema patterns files fs items0 hp hnd hok
  obtain ⟨c2, items2, heq2, hg, hc, ht⟩ :=
    single_change_counts type schema patterns files fs fs' items1 f0
      hp hnd hf0 hin1 hchg hsame hmok
  exact ⟨_, c2, items1, items2, by rw [heq1], heq2, hg, hc, ht⟩

/-- C6: on a successful pass for a type, the collection `index.json` array
holds the documents in exactly file-discovery order (the i-th element is the
document of the i-th discovered file) and the generated import module lists
the document identifiers in that same order, whatever the cache state (hits
and misses alike). -/
theorem C6_collection_ordering (type : String) (schema : Option Schema)
    (patterns files : List String) (fs : String → FileInfo) (items0 : Rec CacheEntry)
    (hp : patterns ≠ [])
    (hnd : files.Nodup)
    (hok : ∀ f ∈ files, hitB items0 fs f = true ∨ missOk schema fs f = true) :
    ∃ (c : GeneratedCount) (items1 : Rec CacheEntry),
      (generateDocuments type schema patterns files fs items0).outcome = .ok (c, items1) ∧
      (generateDocuments type schema patterns files fs items0).writes =
        FsWrite.mkdirGenerated type ::
          ((files.filter (fun f => !hitB items0 fs f)).map
            (fun f => FsWrite.docFile type f (freshData schema fs f)) ++
          [.indexJson type (files.map (docFor schema fs items0)),
           .indexMjs type files]) := by
  obtain ⟨items1, heq, _, _⟩ :=
    generateDocuments_ok type schema patterns files fs items0 hp hnd hok
  exact ⟨_, items1, by rw [heq], by rw [heq]⟩

/-- C3: when a type's file set contains a document that undergoes and fails
schema validation (it is not served from cache), the processor raises the
document-validation error carrying the file's path, the first failing
field's name, the line computed from the raw metadata text, and column 0;
the outcome is that error — so the run aborts — and no `index.json`
collection artifact for the type is written. -/
theorem C3_fatal_validation_halts_output (type : String) (s : Schema)
    (patterns files : List String) (fs : String → FileInfo) (items0 : Rec CacheEntry)
    (hp : patterns ≠ [])
    (hnd : files.Nodup)
    (hex : ∃ f ∈ files, hitB items0 fs f = false ∧ missOk (some s) fs f = false) :
    ∃ (f0 : String) (failure : ParseFailure),
      f0 ∈ files ∧
      s (fs f0).frontmatter = .error failure ∧
      (generateDocuments type (some s) patterns files fs items0).outcome =
        .error (.invalidFrontmatter type f0 failure.firstFieldPath
          ⟨f0, getYamlErrorLine (fs f0).matterText failure.firstFieldPath, 0⟩) ∧
      (∀ ds, FsWrite.indexJson type ds ∉
        (generateDocuments type (some s) patterns files fs items0).writes) := by
  have hplen : ¬ patterns.length = 0 := fun h => hp (List.length_eq_zero.mp h)
  obtain ⟨st', f0, failure, hf0, hf0hit, hf0err, heq, hw⟩ :=
    genLoop_err type s fs items0 files ⟨items0, [.mkdirGenerated type], [], 0, 0⟩
      hnd (fun f _ => rfl) hex
  have hwr : (generateDocuments type (some s) patterns files fs items0).writes =
      st'.writes := by
    rw [generateDocuments, if_neg hplen, heq]
  refine ⟨f0, failure, hf0, hf0err, ?_, ?_⟩
  · rw [generateDocuments, if_neg hplen, heq]
  · intro ds hmem
    rw [hwr] at hmem
    rcases hw _ hmem with h | ⟨g, d, h⟩
    · rw [List.mem_singleton] at h
      exact FsWrite.noConfusion h
    · exact FsWrite.noConfusion h

/-- C4: a recomputed document whose type declares a schema and whose
metadata validates gets the schema's transformed result as its emitted and
cached data (the per-document json write, the docs record and the cache
entry all carry the parsed output, not the raw metadata block); a recomputed
document of a schemaless type gets the raw metadata block unmodified. -/
theorem C4_validation_precedence (type : String) (fs : String → FileInfo)
    (st : GenState) (file : String) :
    (∀ (s : Schema) (parsed : Data), s (fs file).frontmatter = .ok parsed →
      ∃ st', processMiss type (some s) fs st file = .ok st' ∧
        recordGet st'.docs file = some parsed ∧
        recordGet st'.cacheItems file = some ⟨(fs file).hash, type, parsed⟩ ∧
        st'.writes = st.writes ++ [.docFile type file parsed]) ∧
    (∃ st', processMiss type none fs st file = .ok st' ∧
      recordGet st'.docs file = some (fs file).frontmatter ∧
      recordGet st'.cacheItems file = some ⟨(fs file).hash, type, (fs file).frontmatter⟩ ∧
      st'.writes = st.writes ++ [.docFile type file (fs file).frontmatter]) := by
  constructor
  · intro s parsed hs
    have hmok : missOk (some s) fs file = true := by
      rw [missOk, hs]
    have hfresh : freshData (some s) fs file = parsed := by
      rw [freshData, hs]
    refine ⟨_, processMiss_ok type (some s) fs st file hmok, ?_, ?_, ?_⟩
    · simp [hfresh, recordGet_recordSet_self]
    · simp [hfresh, recordGet_recordSet_self]
    · simp [hfresh]
  · have hmok : missOk none fs file = true := rfl
    have hfresh : freshData none fs file = (fs file).frontmatter := rfl
    refine ⟨_, processMiss_ok type none fs st file hmok, ?_, ?_, ?_⟩
    · simp [hfresh, recordGet_recordSet_self]
    · simp [hfresh, recordGet_recordSet_self]
    · simp [hfresh]

/-- C8: processing a document type with an empty pattern list fails with the
configuration error before anything else happens: the result is the
`ConfigNoPatternsError` with no filesystem effect, independent of the
discovered files, the filesystem or the cache. -/
theorem C8_empty_patterns_config_error (type : String) (schema : Option Schema)
    (files : List String) (fs : String → FileInfo) (items : Rec CacheEntry) :
    generateDocuments type schema [] files fs items =
      ⟨[], .error .configNoPatterns⟩ := by
  rfl

/-- C9: in the body schema's transform, a document whose resolved format is
plain markdown is bundled as — and its document body records — the
templated `mdoc` format when the global `mdAsMarkdoc` option is set; with
the option unset every resolved format is used unchanged. -/
theorem C9_md_as_markdoc_promotion (path : String) (formatInput : DocumentFormatInput)
    (contents : String) (bundler : Bundler) :
    (getFormat path formatInput = .ok .md →
      bodyTransform path formatInput true contents bundler =
        (match bundler .mdoc contents with
         | .ok code => .ok ⟨.mdoc, contents, code⟩
         | .error msg => .error (.bundleIssue msg))) ∧
    (∀ f, getFormat path formatInput = .ok f →
      bodyTransform path formatInput false contents bundler =
        (match bundler f contents with
         | .ok code => .ok ⟨f, contents, code⟩
         | .error msg => .error (.bundleIssue msg))) := by
  constructor
  · intro h
    simp only [bodyTransform, h]
    rw [if_pos ⟨trivial, trivial⟩]
    cases hb : bundler DocumentFormat.mdoc contents <;> rfl
  · intro f h
    simp only [bodyTransform, h]
    rw [if_neg (fun hc => Bool.false_ne_true hc.2)]
    cases hb : bundler f contents <;> rfl

/-- C10: the per-pass stats aggregation reduces the per-type summaries
without an initial accumulator, so a pass over a configuration with an empty
definitions map throws the reduce-of-empty-array error — after the entry
files were written, assets output and the cache saved — instead of
reporting zero counts. -/
theorem C10_empty_definitions_reduce_throws (env : Env) (patterns : List String)
    (items : Rec CacheEntry) :
    generatePass env patterns [] items =
      ([.entryFiles, .outputAssets, .saveCache], .error .reduceEmpty) := by
  rfl

/-- The `detect` branch of `getFormat`, spelled out. -/
theorem getFormat_detect (file : String) :
    getFormat file .detect =
      (if mdExtensions.contains (extname file) then Except.ok DocumentFormat.md
       else if extname file = ".mdx" then Except.ok DocumentFormat.mdx
       else if extname file = ".mdoc" then Except.ok DocumentFormat.mdoc
       else Except.error (FormatError.detectionFailure file)) := rfl

/-- C5 (counterexample): the claim lets only `.md`, `.markdown` and `.mdown`
detect as markdown and predicts a format-detection error for every other
non-`.mdx`/non-`.mdoc` extension; but the source's extension list also
contains `.mkdn`, `.mkd`, `.mdwn`, `.mkdown` and `.ron`, so `file.mkd`
detects as markdown instead of failing. -/
theorem C5_counterexample :
    extname "file.mkd" ∉ [".md", ".markdown", ".mdown"] ∧
    extname "file.mkd" ≠ ".mdx" ∧
    extname "file.mkd" ≠ ".mdoc" ∧
    getFormat "file.mkd" .detect = .ok .md ∧
    ∀ p, getFormat "file.mkd" .detect ≠ .error (.detectionFailure p) := by
  refine ⟨by decide, by decide, by decide, rfl, ?_⟩
  intro p h
  rw [show getFormat "file.mkd" .detect = .ok .md from rfl] at h
  exact Except.noConfusion h

/-- C5 (amended): an explicit (non-detect) override is returned unchanged;
under `detect`, every extension of the source's markdown list (`.md`,
`.markdown`, `.mdown`, `.mkdn`, `.mkd`, `.mdwn`, `.mkdown`, `.ron`)
resolves to the markdown format, `.mdx` resolves to the extended format,
`.mdoc` to the templated format, and any other extension fails with the
format-detection error carrying the offending path. -/
theorem C5_amended_format_detection :
    (∀ (file : String) (f : DocumentFormat),
      getFormat file (.explicit f) = .ok f) ∧
    (∀ file, extname file ∈ mdExtensions → getFormat file .detect = .ok .md) ∧
    (∀ file, extname file = ".mdx" → getFormat file .detect = .ok .mdx) ∧
    (∀ file, extname file = ".mdoc" → getFormat file .detect = .ok .mdoc) ∧
    (∀ file, extname file ∉ mdExtensions → extname file ≠ ".mdx" →
      extname file ≠ ".mdoc" →
      getFormat file .detect = .error (.detectionFailure file)) := by
  refine ⟨fun file f => rfl, ?_, ?_, ?_, ?_⟩
  · intro file h
    have hc : mdExtensions.contains (extname file) = true := by
      simp [List.contains, List.elem_eq_mem, h]
    rw [getFormat_detect, hc, if_pos rfl]
  · intro file h
    rw [getFormat_detect, h]
    rfl
  · intro file h
    rw [getFormat_detect, h]
    rfl
  · intro file h1 h2 h3
    have hc : mdExtensions.contains (extname file) = false := by
      simp [List.contains, List.elem_eq_mem, h1]
    rw [getFormat_detect, hc, if_neg Bool.false_ne_true, if_neg h2, if_neg h3]

/-- C7: for a qualifying watch event (not a directory event, with a
filename) on a path that is not a configuration dependency file, the
handler removes exactly the cache `uniques` entries whose stored value is
the changed path — keeping every other entry — and regenerates with the
in-memory cache items untouched; re-running the pass from a cache state
matching the pre-event filesystem view then recomputes only the changed
file: `generated = 1`, `cached = N - 1` over the `N` discovered files. -/
theorem C7_watch_invalidation (contentDirPath : String) (configImports : List String)
    (cache : WatchCache) (eventName filename : String)
    (hev : ¬ (eventName = "addDir" ∨ eventName = "unlinkDir"))
    (hnc : joinPath contentDirPath filename ∉ configImports) :
    ∃ cache' : WatchCache,
      watchHandler contentDirPath configImports cache eventName filename =
        .regenerate cache' ∧
      cache'.items = cache.items ∧
      cache'.uniques = cache.uniques.filter
        (fun kv => kv.2 ≠ joinPath contentDirPath filename) ∧
      (∀ (type : String) (schema : Option Schema) (patterns files : List String)
          (fs fs' : String → FileInfo),
        patterns ≠ [] → files.Nodup →
        joinPath contentDirPath filename ∈ files →
        (∀ f ∈ files, ∃ e : CacheEntry,
          recordGet cache'.items f = some e ∧ e.hash = (fs f).hash) →
        (fs' (joinPath contentDirPath filename)).hash ≠
          (fs (joinPath contentDirPath filename)).hash →
        (∀ f, f ≠ joinPath contentDirPath filename → fs' f = fs f) →
        missOk schema fs' (joinPath contentDirPath filename) = true →
        ∃ (c : GeneratedCount) (items' : Rec CacheEntry),
          (generateDocuments type schema patterns files fs' cache'.items).outcome =
            .ok (c, items') ∧
          c.generated = 1 ∧ c.cached = files.length - 1 ∧ c.total = files.length) := by
  have hc : configImports.contains (joinPath contentDirPath filename) = false := by
    simp [List.contains, List.elem_eq_mem, hnc]
  refine ⟨⟨cache.items,
      cache.uniques.filter (fun kv => kv.2 ≠ joinPath contentDirPath filename)⟩,
    ?_, rfl, rfl, ?_⟩
  · simp only [watchHandler]
    rw [if_neg hev, hc, if_neg Bool.false_ne_true]
  · intro type schema patterns files fs fs' hp hnd hmem hhits hchg hsame hmok
    exact single_change_counts type schema patterns files fs fs' cache.items
      (joinPath contentDirPath filename) hp hnd hmem hhits hchg hsame hmok

/-! ### Concrete witnesses -/

/-- Witness for C1 at a concrete two-file project: both passes complete and
the second is all-cache. -/
theorem C1_witness :
    ∃ (c1 c2 : GeneratedCount) (items1 items2 : Rec CacheEntry),
      (generateDocuments "post" none ["**"] ["a.md", "b.md"] exFs []).outcome =
        .ok (c1, items1) ∧
      (generateDocuments "post" none ["**"] ["a.md", "b.md"] exFs items1).outcome =
        .ok (c2, items2) ∧
      c2.generated = 0 ∧ c2.cached = c2.total ∧
      c2.total = (["a.md", "b.md"] : List String).length :=
  C1_idempotence_under_no_change "post" none ["**"] ["a.md", "b.md"] exFs []
    (by decide) (by decide) (fun f _ => Or.inr rfl)

/-- Witness for C2 at a concrete two-file project where only `a.md` was
touched between the passes. -/
theorem C2_witness :
    ∃ (c1 c2 : GeneratedCount) (items1 items2 : Rec CacheEntry),
      (generateDocuments "post" none ["**"] ["a.md", "b.md"] exFs []).outcome =
        .ok (c1, items1) ∧
      (generateDocuments "post" none ["**"] ["a.md", "b.md"] exFs2 items1).outcome =
        .ok (c2, items2) ∧
      c2.generated = 1 ∧ c2.cached = (["a.md", "b.md"] : List String).length - 1 ∧
      c2.total = (["a.md", "b.md"] : List String).length :=
  C2_precise_invalidation "post" none ["**"] ["a.md", "b.md"] exFs exFs2 [] "a.md"
    (by decide) (by decide) (by decide) (fun f _ => Or.inr rfl) (by decide)
    (fun f hf => by simp [exFs2, hf]) rfl

/-- Witness for C3 at a one-file project whose schema always fails. -/
theorem C3_witness :
    ∃ (f0 : String) (failure : ParseFailure),
      f0 ∈ ["a.md"] ∧
      exFailSchema (exFs f0).frontmatter = .error failure ∧
      (generateDocuments "post" (some exFailSchema) ["**"] ["a.md"] exFs []).outcome =
        .error (.invalidFrontmatter "post" f0 failure.firstFieldPath
          ⟨f0, getYamlErrorLine (exFs f0).matterText failure.firstFieldPath, 0⟩) ∧
      (∀ ds, FsWrite.indexJson "post" ds ∉
        (generateDocuments "post" (some exFailSchema) ["**"] ["a.md"] exFs []).writes) :=
  C3_fatal_validation_halts_output "post" exFailSchema ["**"] ["a.md"] exFs []
    (by decide) (by decide) ⟨"a.md", by decide, rfl, rfl⟩

/-- Witness for C4: the transformed data (which differs from the raw
frontmatter of `a.md`) is what gets emitted and cached. -/
theorem C4_witness :
    (∃ st', processMiss "post" (some exSchema) exFs ⟨[], [], [], 0, 0⟩ "a.md" = .ok st' ∧
      recordGet st'.docs "a.md" = some [("title", "Transformed")] ∧
      recordGet st'.cacheItems "a.md" =
        some ⟨(exFs "a.md").hash, "post", [("title", "Transformed")]⟩ ∧
      st'.writes = [.docFile "post" "a.md" [("title", "Transformed")]]) ∧
    (∃ st', processMiss "post" none exFs ⟨[], [], [], 0, 0⟩ "a.md" = .ok st' ∧
      recordGet st'.docs "a.md" = some (exFs "a.md").frontmatter ∧
      recordGet st'.cacheItems "a.md" =
        some ⟨(exFs "a.md").hash, "post", (exFs "a.md").frontmatter⟩ ∧
      st'.writes = [.docFile "post" "a.md" (exFs "a.md").frontmatter]) := by
  constructor
  · exact (C4_validation_precedence "post" exFs ⟨[], [], [], 0, 0⟩ "a.md").1 exSchema
      [("title", "Transformed")] rfl
  · exact (C4_validation_precedence "post" exFs ⟨[], [], [], 0, 0⟩ "a.md").2

/-- Witness for the amended C5 at concrete paths of each kind. -/
theorem C5_amended_witness :
    getFormat "a.txt" .detect = .error (.detectionFailure "a.txt") ∧
    getFormat "b.markdown" .detect = .ok .md ∧
    getFormat "c.ron" .detect = .ok .md ∧
    getFormat "d.mdx" .detect = .ok .mdx ∧
    getFormat "e.mdoc" .detect = .ok .mdoc ∧
    getFormat "f.xyz" (.explicit .mdoc) = .ok .mdoc := by
  refine ⟨?_, ?_, ?_, ?_, ?_, ?_⟩
  · exact C5_amended_format_detection.2.2.2.2 "a.txt" (by decide) (by decide) (by decide)
  · exact C5_amended_format_detection.2.1 "b.markdown" (by decide)
  · exact C5_amended_format_detection.2.1 "c.ron" (by decide)
  · exact C5_amended_format_detection.2.2.1 "d.mdx" (by decide)
  · exact C5_amended_format_detection.2.2.2.1 "e.mdoc" (by decide)
  · exact C5_amended_format_detection.1 "f.xyz" DocumentFormat.mdoc

/-- Witness for C6 at a project with one hit (`a.md`) and one miss
(`b.md`): the collection artifacts follow discovery order. -/
theorem C6_witness :
    ∃ (c : GeneratedCount) (items1 : Rec CacheEntry),
      (generateDocuments "post" none ["**"] ["a.md", "b.md"] exFs exItemsC6).outcome =
        .ok (c, items1) ∧
      (generateDocuments "post" none ["**"] ["a.md", "b.md"] exFs exItemsC6).writes =
        FsWrite.mkdirGenerated "post" ::
          (((["a.md", "b.md"] : List String).filter
              (fun f => !hitB exItemsC6 exFs f)).map
            (fun f => FsWrite.docFile "post" f (freshData none exFs f)) ++
          [.indexJson "post"
            ((["a.md", "b.md"] : List String).map (docFor none exFs exItemsC6)),
           .indexMjs "post" ["a.md", "b.md"]]) :=
  C6_collection_ordering "post" none ["**"] ["a.md", "b.md"] exFs exItemsC6
    (by decide) (by decide) (fun f _ => Or.inr rfl)

/-- Witness for C7: a `change` event on `content/a.md` (not a config
dependency) filters the matching `uniques` entry, keeps the items, and the
follow-up pass recomputes exactly the changed file. -/
theorem C7_witness :
    ∃ cache' : WatchCache,
      watchHandler "content" ["content/markdownlayer.config.ts"] exWatchCache
        "change" "a.md" = .regenerate cache' ∧
      cache'.items = exWatchCache.items ∧
      cache'.uniques = exWatchCache.uniques.filter
        (fun kv => kv.2 ≠ joinPath "content" "a.md") ∧
      ∃ (c : GeneratedCount) (items' : Rec CacheEntry),
        (generateDocuments "post" none ["**"] ["content/a.md", "content/b.md"]
          exWatchFs2 cache'.items).outcome = .ok (c, items') ∧
        c.generated = 1 ∧ c.cached = 1 ∧ c.total = 2 := by
  obtain ⟨cache', h1, h2, h3, h4⟩ :=
    C7_watch_invalidation "content" ["content/markdownlayer.config.ts"] exWatchCache
      "change" "a.md" (by decide) (by decide)
  refine ⟨cache', h1, h2, h3, ?_⟩
  have hj : joinPath "content" "a.md" = "content/a.md" := rfl
  obtain ⟨c, items', hc1, hg, hcach, ht⟩ :=
    h4 "post" none ["**"] ["content/a.md", "content/b.md"] exWatchFs exWatchFs2
      (by decide) (by decide) (by rw [hj]; decide)
      (by
        rw [h2]
        intro f hf
        rcases List.mem_cons.mp hf with hfa | hfb
        · subst hfa
          exact ⟨⟨"100", "post", [("title", "A")]⟩, rfl, rfl⟩
        · have hfb2 := List.mem_singleton.mp hfb
          subst hfb2
          exact ⟨⟨"200", "post", [("title", "B")]⟩, rfl, rfl⟩)
      (by decide)
      (fun f hf => by
        rw [hj] at hf
        simp [exWatchFs2, hf])
      rfl
  exact ⟨c, items', hc1, hg, by rw [hcach]; rfl, by rw [ht]; rfl⟩

/-- Witness for C9: `a.md` detects as markdown; with `mdAsMarkdoc` set it is
bundled and recorded as `mdoc`, without the option it stays `md`. -/
theorem C9_witness :
    bodyTransform "a.md" .detect true "xyz" exBundler =
      .ok ⟨.mdoc, "xyz", "compiled:xyz"⟩ ∧
    bodyTransform "a.md" .detect false "xyz" exBundler =
      .ok ⟨.md, "xyz", "compiled:xyz"⟩ := by
  constructor
  · rw [(C9_md_as_markdoc_promotion "a.md" .detect "xyz" exBundler).1 rfl]
    rfl
  · rw [(C9_md_as_markdoc_promotion "a.md" .detect "xyz" exBundler).2 DocumentFormat.md rfl]
    rfl

end Markdowner
